import Mathlib

/-!
Shallow embedding of `src/chart_visualizer.py` (StepMania chart visualizer).

The Python module parses `.sm` chart files (tag extraction, timing lists,
`#NOTES` sections, note grids, hold/roll pairing) and computes image
dimensions for rendering.  Beats and numeric tag values are modelled as `ℚ`
(Python floats hold the decimal literals appearing in chart files exactly
enough for order/arithmetic reasoning here).  Fallible Python operations
(tuple unpacking, `float`/`int` conversion, `max` of an empty sequence,
indexing) are modelled with `Except String` / `Option`.
-/

namespace SMChart

attribute [local semireducible] Rat.sub Rat.add Rat.mul Rat.inv

/-- Models Python `str.strip()` on a list of characters: drop leading and
trailing whitespace.  (Lean's `Char.isWhitespace` covers space, tab, CR, LF —
the characters occurring in chart files.) -/
def pyStripChars (cs : List Char) : List Char :=
  ((cs.dropWhile Char.isWhitespace).reverse.dropWhile Char.isWhitespace).reverse

/-- Models Python `str.strip()` on strings. -/
def pyStrip (s : String) : String :=
  String.mk (pyStripChars s.data)

/-- Models Python `str.split(sep)` for a single-character separator on a
character list: empty pieces are kept, and the empty string yields one empty
piece, exactly as in Python. -/
def splitOnChar (sep : Char) : List Char → List (List Char)
  | [] => [[]]
  | c :: cs =>
    if c == sep then [] :: splitOnChar sep cs
    else
      match splitOnChar sep cs with
      | r :: rs => (c :: r) :: rs
      | [] => [[c]]

/-- Models Python `str.split(sep)` on strings (single-character separator —
the only kind the source uses: `,`, `=` and a line break). -/
def pySplit (sep : Char) (s : String) : List String :=
  (splitOnChar sep s.data).map String.mk

/-- Models the Python membership test `c in s` for a character. -/
def pyContains (s : String) (c : Char) : Bool :=
  s.data.any (fun x => x == c)

/-- Does `cs` start with the pattern `pat`? -/
def listStartsWith : List Char → List Char → Bool
  | [], _ => true
  | _ :: _, [] => false
  | p :: ps, c :: cs => p == c && listStartsWith ps cs

/-- Split a character list at the first occurrence of `stop`: returns the
characters before it and the characters after it, or `none` when `stop` does
not occur.  This models a regex fragment `([^X]*)X` for a single character
`X`. -/
def breakAtChar (stop : Char) : List Char → Option (List Char × List Char)
  | [] => none
  | c :: cs =>
    if c == stop then some ([], cs)
    else
      match breakAtChar stop cs with
      | some (a, b) => some (c :: a, b)
      | none => none

/-- Search for the leftmost match of the regex `#<tag>:([^;]*);`
(`re.search` in `_extract_tag`, `_parse_bpms`, `_parse_stops`, `_parse_warps`,
`_parse_fakes`, `_parse_speeds`, `_parse_scrolls`) and return the capture
group.  If the literal part matches at a position but no `;` follows anywhere
to its right, no later position can complete a match either, so returning
`none` there is faithful to the regex engine. -/
def searchTag (pat : List Char) : List Char → Option (List Char)
  | [] => none
  | c :: cs =>
    if listStartsWith pat (c :: cs) then
      match breakAtChar ';' ((c :: cs).drop pat.length) with
      | some (body, _) => some body
      | none => none
    else searchTag pat cs

/-- The literal part `#<tag>:` of the tag regexes. -/
def tagPattern (tag : String) : List Char :=
  ('#' :: tag.data) ++ [':']

/-- Capture group of `re.search(r'#<tag>:([^;]*);', content)`, or `none` when
the pattern does not occur in `content`. -/
def findTagBody (content : String) (tag : String) : Option String :=
  (searchTag (tagPattern tag) content.data).map String.mk

/-- Models `_extract_tag`: the trimmed capture of `#<tag>:(...);`, or the
empty string when the tag is absent. -/
def extract_tag (content : String) (tag : String) : String :=
  match findTagBody content tag with
  | some body => pyStrip body
  | none => ""

/-- Numeric value of a decimal digit character. -/
def digitVal (c : Char) : ℕ :=
  c.toNat - 48

/-- Value of a list of decimal digit characters read left to right. -/
def digitsToNat (ds : List Char) : ℕ :=
  ds.foldl (fun n c => 10 * n + digitVal c) 0

/-- Models the core of Python `float(s)` for an unsigned literal: digits with
an optional fraction part (`"12"`, `"12."`, `".5"`, `"1.5"`).  Exponents,
underscores and `inf`/`nan`, which never occur in the inputs considered here,
are not modelled and yield `none`. -/
def parseDecimalCore (cs : List Char) : Option ℚ :=
  let intPart := cs.takeWhile Char.isDigit
  let rest := cs.dropWhile Char.isDigit
  match rest with
  | [] => if intPart.isEmpty then none else some ((digitsToNat intPart : ℚ))
  | '.' :: frac =>
    if frac.all Char.isDigit && !(intPart.isEmpty && frac.isEmpty) then
      some ((digitsToNat intPart : ℚ) + (digitsToNat frac : ℚ) / ((10 : ℚ) ^ frac.length))
    else none
  | _ => none

/-- Models Python `float(s)`: strip whitespace, optional sign, decimal
literal. -/
def pyFloat (s : String) : Option ℚ :=
  match pyStripChars s.data with
  | '+' :: cs => parseDecimalCore cs
  | '-' :: cs => (parseDecimalCore cs).map Neg.neg
  | cs => parseDecimalCore cs

/-- Models Python `int(s)`: strip whitespace, optional sign, decimal digits
only. -/
def pyInt (s : String) : Option ℤ :=
  match pyStripChars s.data with
  | '+' :: cs => if !cs.isEmpty && cs.all Char.isDigit then some ((digitsToNat cs : ℤ)) else none
  | '-' :: cs => if !cs.isEmpty && cs.all Char.isDigit then some (-(digitsToNat cs : ℤ)) else none
  | cs => if !cs.isEmpty && cs.all Char.isDigit then some ((digitsToNat cs : ℤ)) else none

/-- Python `float(s)` as a fallible step: a non-numeric string raises
`ValueError`. -/
def floatE (s : String) : Except String ℚ :=
  match pyFloat s with
  | some q => Except.ok q
  | none => Except.error ("ValueError: could not convert string to float")

/-- Python `int(s)` as a fallible step. -/
def intE (s : String) : Except String ℤ :=
  match pyInt s with
  | some n => Except.ok n
  | none => Except.error ("ValueError: invalid literal for int")

/-- Models Python tuple unpacking `a, b = parts` of a list of strings:
exactly two elements or a `ValueError`. -/
def pyUnpack2 (parts : List String) : Except String (String × String) :=
  match parts with
  | [a, b] => Except.ok (a, b)
  | _ => Except.error ("ValueError: unpack")

/-- Loop body shared by `_parse_bpms`, `_parse_stops`, `_parse_warps`,
`_parse_fakes`, `_parse_scrolls`: for each comma-separated entry containing
`=`, unpack `beat, value = entry.split('=')` and convert both sides with
`float`; entries without `=` are skipped. -/
def pairEntriesGo : List String → Except String (List (ℚ × ℚ))
  | [] => Except.ok []
  | e :: es =>
    if pyContains e '=' then do
      let (bs, vs) ← pyUnpack2 (pySplit '=' e)
      let b ← floatE bs
      let v ← floatE vs
      let rest ← pairEntriesGo es
      Except.ok ((b, v) :: rest)
    else pairEntriesGo es

/-- Python comparison of the 2-tuples built by the pair-list parsers:
lexicographic on (beat, value).  `sorted` orders by exactly this relation. -/
def tupLe2 (a b : ℚ × ℚ) : Bool :=
  decide (a.1 < b.1) || (decide (a.1 = b.1) && decide (a.2 ≤ b.2))

/-- Python comparison of the 3-tuples built by `_parse_speeds`:
lexicographic on (beat, multiplier, duration). -/
def tupLe3 (a b : ℚ × ℚ × ℚ) : Bool :=
  decide (a.1 < b.1) ||
    (decide (a.1 = b.1) &&
      (decide (a.2.1 < b.2.1) || (decide (a.2.1 = b.2.1) && decide (a.2.2 ≤ b.2.2))))

/-- Insert `a` into `l` after every element `b` with `le b a`.  Stable:
an element tied with `a` that is already in `l` stays before `a`. -/
def insertSorted (le : α → α → Bool) (a : α) : List α → List α
  | [] => [a]
  | b :: bs => if le b a then b :: insertSorted le a bs else a :: b :: bs

/-- Models Python `sorted(l)` for the comparison `le`: a stable sort by
repeated ordered insertion, processed in input order.  For the tuple orders
used here `le` is antisymmetric, so the sorted permutation is unique and any
correct model of `sorted` — including this one — produces the same list. -/
def pySorted (le : α → α → Bool) (l : List α) : List α :=
  l.foldl (fun acc a => insertSorted le a acc) []

/-- The unsorted entry list accumulated by a pair-list parser before its
final `sorted(...)` call: `none` match yields an empty accumulation. -/
def rawTimingPairs (tag : String) (content : String) : Except String (List (ℚ × ℚ)) :=
  match findTagBody content tag with
  | none => Except.ok []
  | some body => pairEntriesGo (pySplit ',' (pyStrip body))

/-- Shared shape of `_parse_bpms`, `_parse_stops`, `_parse_warps`,
`_parse_fakes`, `_parse_scrolls`: accumulate `(float(beat), float(value))`
pairs and return `sorted(pairs)` (Python `sorted`, i.e. a stable sort by the
lexicographic tuple order). -/
def parseTimingPairs (tag : String) (content : String) : Except String (List (ℚ × ℚ)) :=
  (rawTimingPairs tag content).map (fun l => pySorted tupLe2 l)

/-- Models `ChartVisualizer._parse_bpms`. -/
def parse_bpms (content : String) : Except String (List (ℚ × ℚ)) :=
  parseTimingPairs ("BPMS") content

/-- Models `ChartVisualizer._parse_stops`. -/
def parse_stops (content : String) : Except String (List (ℚ × ℚ)) :=
  parseTimingPairs ("STOPS") content

/-- Models `ChartVisualizer._parse_warps`. -/
def parse_warps (content : String) : Except String (List (ℚ × ℚ)) :=
  parseTimingPairs ("WARPS") content

/-- Models `ChartVisualizer._parse_fakes`. -/
def parse_fakes (content : String) : Except String (List (ℚ × ℚ)) :=
  parseTimingPairs ("FAKES") content

/-- Models `ChartVisualizer._parse_scrolls`. -/
def parse_scrolls (content : String) : Except String (List (ℚ × ℚ)) :=
  parseTimingPairs ("SCROLLS") content

/-- Loop body of `_parse_speeds`: the tag body is split on `,`, each entry
containing `=` is unpacked as `beat, data = entry.split('=')` and then
`multiplier, duration = data.split(',')` — note that `data` can never contain
a comma because the body was already split on commas. -/
def speedEntriesGo : List String → Except String (List (ℚ × ℚ × ℚ))
  | [] => Except.ok []
  | e :: es =>
    if pyContains e '=' then do
      let (bs, ds) ← pyUnpack2 (pySplit '=' e)
      let (ms, dus) ← pyUnpack2 (pySplit ',' ds)
      let b ← floatE bs
      let m ← floatE ms
      let d ← floatE dus
      let rest ← speedEntriesGo es
      Except.ok ((b, m, d) :: rest)
    else speedEntriesGo es

/-- The unsorted triple list accumulated by `_parse_speeds` before
`sorted(...)`. -/
def rawTimingSpeeds (content : String) : Except String (List (ℚ × ℚ × ℚ)) :=
  match findTagBody content ("SPEEDS") with
  | none => Except.ok []
  | some body => speedEntriesGo (pySplit ',' (pyStrip body))

/-- Models `ChartVisualizer._parse_speeds`. -/
def parse_speeds (content : String) : Except String (List (ℚ × ℚ × ℚ)) :=
  (rawTimingSpeeds content).map (fun l => pySorted tupLe3 l)

/-- Equality of `Except` results is decidable componentwise; used to settle
concrete runs of the fallible parsers by evaluation. -/
instance {ε α : Type} [DecidableEq ε] [DecidableEq α] : DecidableEq (Except ε α) := fun a b =>
  match a, b with
  | Except.ok x, Except.ok y =>
    if h : x = y then isTrue (by rw [h]) else isFalse (fun hc => h (Except.ok.inj hc))
  | Except.error x, Except.error y =>
    if h : x = y then isTrue (by rw [h]) else isFalse (fun hc => h (Except.error.inj hc))
  | Except.ok _, Except.error _ => isFalse (fun hc => Except.noConfusion hc)
  | Except.error _, Except.ok _ => isFalse (fun hc => Except.noConfusion hc)

/-- Models the `Note` dataclass: beat, 0-based column, type string
(`"tap"`, `"hold_head"`, `"roll_tail"`, ...), `hold_length` (default 0) and
`is_fake` (default `False`, never set by the module). -/
structure Note where
  beat : ℚ
  column : ℕ
  type : String
  hold_length : ℚ
  is_fake : Bool
deriving DecidableEq

/-- The `ChartVisualizer.NOTE_TYPES` dict literal, entry for entry in source
order.  The source writes the key `"3"` twice (`"hold_tail"` then
`"roll_tail"`); a Python dict literal keeps the later binding. -/
def NOTE_TYPES_entries : List (Char × String) :=
  [('1', "tap"), ('2', "hold_head"), ('3', "hold_tail"), ('M', "mine"),
   ('4', "roll_head"), ('3', "roll_tail"), ('0', "none"), ('F', "fake"), ('L', "lift")]

/-- Lookup in a Python dict built from a literal entry list: a later binding
of the same key overwrites an earlier one. -/
def dictLookup (entries : List (Char × String)) (c : Char) : Option String :=
  entries.foldl (fun acc e => if e.1 == c then some e.2 else acc) none

/-- `NOTE_TYPES[c]` as an optional value (`none` when `c` is not a key). -/
def NOTE_TYPES_get (c : Char) : Option String :=
  dictLookup NOTE_TYPES_entries c

/-- Inner loop of `_parse_notes` over one accepted row: for each character
with its column index, if it is a `NOTE_TYPES` key other than `"0"`, emit a
`Note` at the given beat with the looked-up type. -/
def rowNotes (beat : ℚ) (row : List Char) : List Note :=
  row.enum.filterMap (fun p =>
    match NOTE_TYPES_get p.2 with
    | some t => if p.2 == '0' then none else some ⟨beat, p.1, t, 0, false⟩
    | none => none)

/-- The row list of one measure in `_parse_notes`:
`[row.strip() for row in measure.strip().split('\n') if row.strip()]`. -/
def nonBlankRows (measure : String) : List String :=
  ((pySplit '\n' (pyStrip measure)).map pyStrip).filter (fun r => !r.isEmpty)

/-- Row acceptance in `_parse_notes`: a row participates only when its length
is 4 or 8 (`if len(row) not in [4, 8]: continue`); the parser has no
chart-type parameter, so both lengths are accepted for every chart. -/
def acceptedRowNotes (beat : ℚ) (row : String) : List Note :=
  if row.length = 4 ∨ row.length = 8 then rowNotes beat row.data else []

/-- Notes of one measure whose non-blank row list is `rows`, starting at
running beat `cur`: row `r` sits at beat `cur + r * (4 / len(rows))`, and
rows of a length other than 4 or 8 are skipped (their index still counts). -/
def measureNotes (cur : ℚ) (rows : List String) : List Note :=
  rows.enum.flatMap (fun p =>
    acceptedRowNotes (cur + (p.1 : ℚ) * (4 / (rows.length : ℚ))) p.2)

/-- Measure loop of `_parse_notes`: a measure with no non-blank rows is
skipped by `continue` BEFORE the `current_beat += 4` line, so it does not
advance the running beat. -/
def parseNotesGo : ℚ → List String → List Note
  | _, [] => []
  | cur, m :: ms =>
    let rows := nonBlankRows m
    if rows.isEmpty then parseNotesGo cur ms
    else measureNotes cur rows ++ parseNotesGo (cur + 4) ms

/-- The flat note list appended to `self.notes` by one `_parse_notes` call on
grid text `notes_data` (before `_process_holds`). -/
def parseNotesRaw (notes_data : String) : List Note :=
  parseNotesGo 0 (pySplit ',' (pyStrip notes_data))

/-- Tail predicate of `_process_holds`: same column as the head and type
`hold_tail` or `roll_tail` — the head's own family is NOT consulted. -/
def isTailFor (n t : Note) : Bool :=
  t.column == n.column && (t.type == "hold_tail" || t.type == "roll_tail")

/-- One head's resolution in `_process_holds`: a `hold_head`/`roll_head`
scans the notes after it for the first same-column tail and takes
`tail.beat - head.beat` as its hold length; any other note is untouched. -/
def resolveNote (n : Note) (rest : List Note) : Note :=
  if n.type == "hold_head" || n.type == "roll_head" then
    match rest.find? (isTailFor n) with
    | some t => ⟨n.beat, n.column, n.type, t.beat - n.beat, n.is_fake⟩
    | none => n
  else n

/-- Models `ChartVisualizer._process_holds` acting on the whole `self.notes`
list: each position is resolved against the notes strictly after it. -/
def processHolds : List Note → List Note
  | [] => []
  | n :: rest => resolveNote n rest :: processHolds rest

/-- Models the effect of `ChartVisualizer._parse_notes` on `self.notes`: the
new grid's notes are APPENDED to the state shared by all chart sections, then
`_process_holds` runs over the whole accumulated list.  (The Python function
itself returns `None`.) -/
def parse_notes (state : List Note) (notes_data : String) : List Note :=
  processHolds (state ++ parseNotesRaw notes_data)

/-- The six capture groups of one `#NOTES:` regex match. -/
structure NotesSection where
  chart_type : String
  desc : String
  diff_class : String
  diff_meter : String
  groove_radar : String
  notes_data : String
deriving DecidableEq

/-- The literal head of the `#NOTES` regex. -/
def notesPat : List Char :=
  ['#', 'N', 'O', 'T', 'E', 'S', ':']

/-- Attempt the tail of the regex
`#NOTES:\s*([^:]*):([^:]*):([^:]*):([^:]*):([^:]*):([^;]*);`
right after the literal `#NOTES:`: five colon-terminated fields, then a
semicolon-terminated field.  Group 1 loses its leading whitespace to the
greedy `\s*`.  On success, also return the remaining input after the `;`. -/
def matchNotesFields (cs : List Char) : Option (NotesSection × List Char) := do
  let (f1, r1) ← breakAtChar ':' cs
  let (f2, r2) ← breakAtChar ':' r1
  let (f3, r3) ← breakAtChar ':' r2
  let (f4, r4) ← breakAtChar ':' r3
  let (f5, r5) ← breakAtChar ':' r4
  let (f6, r6) ← breakAtChar ';' r5
  some (⟨String.mk (f1.dropWhile Char.isWhitespace), String.mk f2, String.mk f3,
         String.mk f4, String.mk f5, String.mk f6⟩, r6)

/-- Models `re.finditer` for the `#NOTES` regex: scan left to right; after a
successful match continue after its end, after a failed attempt advance one
character.  `fuel` bounds the recursion; it is instantiated with the input
length, which suffices because every step consumes at least one character. -/
def scanNotesSections (fuel : ℕ) (cs : List Char) : List NotesSection :=
  match fuel, cs with
  | 0, _ => []
  | _, [] => []
  | fuel + 1, c :: rest =>
    if listStartsWith notesPat (c :: rest) then
      match matchNotesFields ((c :: rest).drop notesPat.length) with
      | some (sec, r) => sec :: scanNotesSections fuel r
      | none => scanNotesSections fuel rest
    else scanNotesSections fuel rest

/-- All `#NOTES` regex matches of the file content, in file order. -/
def finditerNotes (content : String) : List NotesSection :=
  scanNotesSections content.data.length content.data

/-- The file-level metadata assembled at the top of `parse_sm_file` (the
`base_metadata` dict): scalar tags plus the six timing lists. -/
structure BaseMetadata where
  title : String
  subtitle : String
  artist : String
  credit : String
  bpms : List (ℚ × ℚ)
  stops : List (ℚ × ℚ)
  warps : List (ℚ × ℚ)
  fakes : List (ℚ × ℚ)
  speeds : List (ℚ × ℚ × ℚ)
  scrolls : List (ℚ × ℚ)
deriving DecidableEq

/-- Builds `base_metadata`, propagating the first parse error in the dict
literal's evaluation order. -/
def baseMetadataOf (content : String) : Except String BaseMetadata := do
  let bpms ← parse_bpms content
  let stops ← parse_stops content
  let warps ← parse_warps content
  let fakes ← parse_fakes content
  let speeds ← parse_speeds content
  let scrolls ← parse_scrolls content
  Except.ok ⟨extract_tag content ("TITLE"), extract_tag content ("SUBTITLE"),
             extract_tag content ("ARTIST"), extract_tag content ("CREDIT"),
             bpms, stops, warps, fakes, speeds, scrolls⟩

/-- One entry of the `charts` list built by `parse_sm_file`.  Its `notes`
field holds the value of `self._parse_notes(...)` — which is `None` in the
source, since `_parse_notes` has no return statement. -/
structure Chart where
  metadata : BaseMetadata
  difficulty : String
  meter : ℤ
  chart_type : String
  notes : Option (List Note)
deriving DecidableEq

/-- Section loop of `parse_sm_file`: sections whose stripped type is not
`dance-single`/`dance-double` are dropped; for the rest, the meter is
converted with `int(...)` (fallible), the section's grid is parsed into the
SHARED `self.notes` state, and a chart record is appended whose `notes` value
is `none`.  Returns the chart list and the final shared note state. -/
def processSections (base : BaseMetadata) :
    List Note → List NotesSection → Except String (List Chart × List Note)
  | state, [] => Except.ok ([], state)
  | state, sec :: rest =>
    if pyStrip sec.chart_type = "dance-single" ∨ pyStrip sec.chart_type = "dance-double" then do
      let m ← intE (pyStrip sec.diff_meter)
      let state' := parse_notes state (pyStrip sec.notes_data)
      let (charts, fin) ← processSections base state' rest
      Except.ok (⟨base, pyStrip sec.diff_class, m, pyStrip sec.chart_type, none⟩ :: charts, fin)
    else processSections base state rest

/-- Models `ChartVisualizer.parse_sm_file` on the file content, starting from
the empty `self.notes` of `__init__`: returns the `charts` list and the final
accumulated `self.notes`. -/
def parse_sm_file (content : String) : Except String (List Chart × List Note) := do
  let base ← baseMetadataOf content
  processSections base [] (finditerNotes content)

/-- Python `max(note.beat for note in notes)` — `none` models the
`ValueError` on an empty sequence. -/
def maxBeat : List Note → Option ℚ
  | [] => none
  | n :: rest =>
    match maxBeat rest with
    | none => some n.beat
    | some m => some (max n.beat m)

/-- Python `int(q)` on a non-negative rational: truncation toward zero. -/
def pyIntOfRat (q : ℚ) : ℤ :=
  Int.tdiv q.num (q.den : ℤ)

/-- Dimension computation of `generate_visualization` (padding 40, note size
20, 60 pixels per beat, column width 24): when the `measures` argument is
falsy (`None` or `0`), it is recomputed from the maximum note beat — raising
on an empty note list — and the width is
`padding*2 + len(chart_data['notes'][0].type) * column_width`, i.e. it uses
the LENGTH OF THE TYPE STRING of the first note (raising when there is no
first note). -/
def generate_dims (notes : List Note) (measures : Option ℤ) : Except String (ℤ × ℤ) := do
  let meas ← match measures with
    | none =>
      match maxBeat notes with
      | none => Except.error ("ValueError: max() arg is an empty sequence")
      | some mb => Except.ok (pyIntOfRat (mb / 4) + 1)
    | some mval =>
      if mval = 0 then
        match maxBeat notes with
        | none => Except.error ("ValueError: max() arg is an empty sequence")
        | some mb => Except.ok (pyIntOfRat (mb / 4) + 1)
      else Except.ok mval
  match notes with
  | [] => Except.error ("IndexError: list index out of range")
  | n0 :: _ => Except.ok ((80 : ℤ) + (n0.type.length : ℤ) * 24, (80 : ℤ) + meas * 4 * 60)

/-- Number of measures among the first `i` that contain a non-blank row —
the amount by which `_parse_notes` has advanced `current_beat / 4` when it
reaches measure `i`, since the blank-measure `continue` skips the
`current_beat += 4` line. -/
def nonBlankMeasuresBefore (ms : List String) (i : ℕ) : ℕ :=
  ((ms.take i).filter (fun m => !(nonBlankRows m).isEmpty)).length

/-- Two-section chart file: the first section has an unterminated hold head,
the second ends in a tail symbol. -/
def c1_file : String :=
  "#NOTES:dance-single:d:Easy:1::2000;#NOTES:dance-single:d:Hard:2::0000\n0000\n0000\n3000;"

/-- File-level metadata of a file with no metadata or timing tags. -/
def c1_base : BaseMetadata :=
  ⟨"", "", "", "", [], [], [], [], [], []⟩

/-- A hold head followed in its column only by a tail of the other family. -/
def c3_ex : List Note :=
  [⟨0, 0, "hold_head", 0, false⟩, ⟨2, 0, "roll_tail", 0, false⟩]

/-- A hold head, an unrelated tap in another column, then a hold tail. -/
def c3w : List Note :=
  [⟨0, 0, "hold_head", 0, false⟩, ⟨1, 1, "tap", 0, false⟩, ⟨2, 0, "hold_tail", 0, false⟩]

/-- A BPMS list with two entries sharing the beat 0, larger value first. -/
def c6_content : String :=
  "#BPMS:0=200,0=100;"

/-- A `dance-single` section whose grid consists of one 8-character row. -/
def c7_file : String :=
  "#NOTES:dance-single:d:Hard:7::10000000;"

/-- A grid whose first measure is blank and whose second holds one tap. -/
def c8_grid : String :=
  ",1000"

/-!
Theorems.
-/

/-- Helper: lexicographic tuple comparison is transitive. -/
theorem tupLe2_trans (a b c : ℚ × ℚ) (h1 : tupLe2 a b = true) (h2 : tupLe2 b c = true) :
    tupLe2 a c = true := by
  simp only [tupLe2, Bool.or_eq_true, Bool.and_eq_true, decide_eq_true_eq] at *
  rcases h1 with h1 | ⟨h1, h1v⟩ <;> rcases h2 with h2 | ⟨h2, h2v⟩
  · exact Or.inl (h1.trans h2)
  · exact Or.inl (h2 ▸ h1)
  · exact Or.inl (h1 ▸ h2)
  · exact Or.inr ⟨h1.trans h2, h1v.trans h2v⟩

/-- Helper: lexicographic tuple comparison is total. -/
theorem tupLe2_total (a b : ℚ × ℚ) : (tupLe2 a b || tupLe2 b a) = true := by
  simp only [tupLe2, Bool.or_eq_true, Bool.and_eq_true, decide_eq_true_eq]
  rcases lt_trichotomy a.1 b.1 with h | h | h
  · exact Or.inl (Or.inl h)
  · rcases le_total a.2 b.2 with hv | hv
    · exact Or.inl (Or.inr ⟨h, hv⟩)
    · exact Or.inr (Or.inr ⟨h.symm, hv⟩)
  · exact Or.inr (Or.inl h)

/-- Helper: lexicographic triple comparison is transitive. -/
theorem tupLe3_trans (a b c : ℚ × ℚ × ℚ) (h1 : tupLe3 a b = true) (h2 : tupLe3 b c = true) :
    tupLe3 a c = true := by
  simp only [tupLe3, Bool.or_eq_true, Bool.and_eq_true, decide_eq_true_eq] at *
  rcases h1 with h1 | ⟨h1, h1v | ⟨h1v, h1w⟩⟩ <;> rcases h2 with h2 | ⟨h2, h2v | ⟨h2v, h2w⟩⟩
  · exact Or.inl (h1.trans h2)
  · exact Or.inl (h2 ▸ h1)
  · exact Or.inl (h2 ▸ h1)
  · exact Or.inl (h1 ▸ h2)
  · exact Or.inr ⟨h1.trans h2, Or.inl (h1v.trans h2v)⟩
  · exact Or.inr ⟨h1.trans h2, Or.inl (h2v ▸ h1v)⟩
  · exact Or.inl (h1 ▸ h2)
  · exact Or.inr ⟨h1.trans h2, Or.inl (h1v ▸ h2v)⟩
  · exact Or.inr ⟨h1.trans h2, Or.inr ⟨h1v.trans h2v, h1w.trans h2w⟩⟩

/-- Helper: lexicographic triple comparison is total. -/
theorem tupLe3_total (a b : ℚ × ℚ × ℚ) : (tupLe3 a b || tupLe3 b a) = true := by
  simp only [tupLe3, Bool.or_eq_true, Bool.and_eq_true, decide_eq_true_eq]
  rcases lt_trichotomy a.1 b.1 with h | h | h
  · exact Or.inl (Or.inl h)
  · rcases lt_trichotomy a.2.1 b.2.1 with hv | hv | hv
    · exact Or.inl (Or.inr ⟨h, Or.inl hv⟩)
    · rcases le_total a.2.2 b.2.2 with hw | hw
      · exact Or.inl (Or.inr ⟨h, Or.inr ⟨hv, hw⟩⟩)
      · exact Or.inr (Or.inr ⟨h.symm, Or.inr ⟨hv.symm, hw⟩⟩)
    · exact Or.inr (Or.inr ⟨h.symm, Or.inl hv⟩)
  · exact Or.inr (Or.inl h)

/-- Helper: membership in an ordered insertion. -/
theorem insertSorted_mem {α} (le : α → α → Bool) (a x : α) (l : List α) :
    x ∈ insertSorted le a l ↔ x = a ∨ x ∈ l := by
  induction l with
  | nil => simp [insertSorted]
  | cons b bs ih =>
    by_cases hba : le b a = true
    · rw [insertSorted, if_pos hba]
      simp only [List.mem_cons, ih]
      tauto
    · rw [insertSorted, if_neg hba]
      exact List.mem_cons

/-- Helper: ordered insertion preserves sortedness for a transitive, total
comparison. -/
theorem insertSorted_pairwise {α} (le : α → α → Bool)
    (trans : ∀ a b c, le a b = true → le b c = true → le a c = true)
    (total : ∀ a b, (le a b || le b a) = true) (a : α) (l : List α)
    (h : l.Pairwise (fun x y => le x y = true)) :
    (insertSorted le a l).Pairwise (fun x y => le x y = true) := by
  induction l with
  | nil => simp [insertSorted]
  | cons b bs ih =>
    rcases List.pairwise_cons.mp h with ⟨hb, hbs⟩
    by_cases hba : le b a = true
    · rw [insertSorted, if_pos hba]
      refine List.pairwise_cons.mpr ⟨?_, ih hbs⟩
      intro x hx
      rcases (insertSorted_mem le a x bs).mp hx with rfl | hxbs
      · exact hba
      · exact hb x hxbs
    · rw [insertSorted, if_neg hba]
      have hab : le a b = true := by
        rcases Bool.or_eq_true_iff.mp (total a b) with hab | hba2
        · exact hab
        · exact absurd hba2 hba
      refine List.pairwise_cons.mpr ⟨?_, List.pairwise_cons.mpr ⟨hb, hbs⟩⟩
      intro x hx
      rcases List.mem_cons.mp hx with rfl | hxbs
      · exact hab
      · exact trans a b x hab (hb x hxbs)

/-- Helper: the insertion-sort model of `sorted` returns sorted output. -/
theorem pySorted_pairwise {α} (le : α → α → Bool)
    (trans : ∀ a b c, le a b = true → le b c = true → le a c = true)
    (total : ∀ a b, (le a b || le b a) = true) (l : List α) :
    (pySorted le l).Pairwise (fun x y => le x y = true) := by
  suffices h : ∀ acc : List α, acc.Pairwise (fun x y => le x y = true) →
      (l.foldl (fun acc a => insertSorted le a acc) acc).Pairwise (fun x y => le x y = true) by
    exact h [] List.Pairwise.nil
  induction l with
  | nil => intro acc hacc; exact hacc
  | cons a as ih =>
    intro acc hacc
    exact ih (insertSorted le a acc) (insertSorted_pairwise le trans total a acc hacc)

/-- Helper: a pair-list parser only ever returns sorted lists, because the
source returns `sorted(pairs)`. -/
theorem parseTimingPairs_sorted (tag content : String) (l : List (ℚ × ℚ))
    (h : parseTimingPairs tag content = Except.ok l) :
    l.Pairwise (fun a b => tupLe2 a b = true) := by
  unfold parseTimingPairs at h
  cases hr : rawTimingPairs tag content with
  | error e => rw [hr] at h; cases h
  | ok raw =>
    rw [hr] at h
    have hl : pySorted tupLe2 raw = l := by
      simpa [Except.map] using h
    subst hl
    exact pySorted_pairwise tupLe2 tupLe2_trans tupLe2_total raw

/-- Helper: the speeds parser only ever returns sorted lists. -/
theorem parse_speeds_sorted (content : String) (l : List (ℚ × ℚ × ℚ))
    (h : parse_speeds content = Except.ok l) :
    l.Pairwise (fun a b => tupLe3 a b = true) := by
  unfold parse_speeds at h
  cases hr : rawTimingSpeeds content with
  | error e => rw [hr] at h; cases h
  | ok raw =>
    rw [hr] at h
    have hl : pySorted tupLe3 raw = l := by
      simpa [Except.map] using h
    subst hl
    exact pySorted_pairwise tupLe3 tupLe3_trans tupLe3_total raw

/-- C2: the `NOTE_TYPES` dict literal binds the character `3` twice, and
Python keeps the later binding, so `3` maps to `roll_tail` and NO character
maps to `hold_tail` — the mapping is not the claimed injective table with all
nine kinds reachable, and no grid input can ever produce a hold-tail note. -/
theorem c2_note_types_shadowed :
    NOTE_TYPES_get '3' = some ("roll_tail") ∧
    ∀ c : Char, decide (NOTE_TYPES_get c = some ("hold_tail")) = false := by
  refine ⟨rfl, ?_⟩
  intro c
  simp only [NOTE_TYPES_get, dictLookup, NOTE_TYPES_entries, List.foldl_cons,
    List.foldl_nil]
  split_ifs <;> decide

/-- C4: the rendered width is `2*padding + len(notes[0].type) * column_width`
— it is derived from the LENGTH OF THE TYPE STRING of the first note, not
from the chart-type column count: a singles chart whose first note is a tap
(`len("tap") = 3`) gets width 152, one whose first note is a mine
(`len("mine") = 4`) gets width 176, while the claimed 4-column singles width
is `80 + 4*24 = 176` in both cases. -/
theorem c4_width_from_note_type_string :
    generate_dims [⟨0, 0, "tap", 0, false⟩] (some 1) = Except.ok (152, 320) ∧
    generate_dims [⟨0, 0, "mine", 0, false⟩] (some 1) = Except.ok (176, 320) ∧
    decide (generate_dims [⟨0, 0, "tap", 0, false⟩] (some 1) =
      Except.ok ((80 : ℤ) + 4 * 24, 320)) = false := by
  refine ⟨by decide, by decide, by decide⟩

/-- C5: rendering a chart with an empty note list and no measure limit
raises — the dimension derivation evaluates `max(note.beat for note in
notes)` on an empty sequence, a `ValueError`, with no fallback. -/
theorem c5_empty_chart_raises :
    generate_dims [] none = Except.error ("ValueError: max() arg is an empty sequence") := by
  decide

/-- C9: `_parse_speeds` splits the tag body on `,` BEFORE splitting each
entry's value on `,`, so the value part of a well-formed
`beat=multiplier,duration` entry never still contains its comma and the
two-variable unpacking `multiplier, duration = data.split(',')` raises: on
`#SPEEDS:0=1.5,0.5;` the parser raises instead of producing `(0, 1.5, 0.5)`. -/
theorem c9_speeds_always_raises :
    parse_speeds ("#SPEEDS:0=1.5,0.5;") = Except.error ("ValueError: unpack") := by
  decide

/-- C1: `_parse_notes` appends every section's notes into the single shared
`self.notes` list and `_parse_notes` returns `None`, so on a two-section
file the final state is one merged sequence — the first section's
unterminated hold head is even resolved against the second section's tail
(hold length 3) — and each chart record's own `notes` value is `None`, not a
per-section sequence. -/
theorem c1_sections_share_note_state :
    parse_sm_file c1_file =
      Except.ok ([⟨c1_base, "Easy", 1, "dance-single", none⟩,
                  ⟨c1_base, "Hard", 2, "dance-single", none⟩],
                 [⟨0, 0, "hold_head", 3, false⟩, ⟨3, 0, "roll_tail", 0, false⟩]) := by
  decide

/-- C3 counterexample: a `hold_head` whose column contains no later
`hold_tail` at all is still assigned a positive hold length, because
`_process_holds` accepts a tail of EITHER family: here it pairs with a
`roll_tail` and gets hold length 2, where the claim requires 0. -/
theorem c3_head_pairs_across_families :
    processHolds c3_ex = [⟨0, 0, "hold_head", 2, false⟩, ⟨2, 0, "roll_tail", 0, false⟩] ∧
    c3_ex.all (fun n => !(n.type == "hold_tail")) = true := by
  exact ⟨by decide, by decide⟩

/-- C6 counterexample: on `#BPMS:0=200,0=100;` the entries are accumulated
in input order `(0,200), (0,100)` but `sorted` compares whole tuples, so the
output is `(0,100), (0,200)` — two equal-beat entries do NOT retain their
relative input order. -/
theorem c6_equal_beats_not_stable :
    rawTimingPairs ("BPMS") c6_content = Except.ok [(0, 200), (0, 100)] ∧
    parse_bpms c6_content = Except.ok [(0, 100), (0, 200)] := by
  exact ⟨by decide, by decide⟩

/-- C7 counterexample: a `dance-single` (4-column) chart whose grid is the
single 8-character row `10000000` still produces a note — `_parse_notes`
accepts every row of length 4 OR 8 regardless of the chart's type. -/
theorem c7_eight_char_row_accepted_in_single :
    (parse_sm_file c7_file).map (fun r => (r.1.map Chart.chart_type, r.2)) =
      Except.ok (["dance-single"], [⟨0, 0, "tap", 0, false⟩]) := by
  decide

/-- C8 counterexample: in the grid `,1000` the measure at index 0 is blank
and the `continue` skips `current_beat += 4`, so the note of the measure at
index 1 carries beat 0, not a beat in `[4, 8)` as the claim requires. -/
theorem c8_blank_measure_skips_advance :
    parseNotesRaw c8_grid = [⟨0, 0, "tap", 0, false⟩] ∧
    (pySplit ',' (pyStrip c8_grid))[0]? = some "" ∧
    (pySplit ',' (pyStrip c8_grid))[1]? = some "1000" := by
  exact ⟨by decide, by decide, by decide⟩

/-- C10: when a timing tag block `#<TAG>:...;` does not occur in the input
at all, the corresponding parser returns the empty list and raises nothing. -/
theorem c10_absent_tags_yield_empty (content : String) :
    (findTagBody content ("BPMS") = none → parse_bpms content = Except.ok []) ∧
    (findTagBody content ("STOPS") = none → parse_stops content = Except.ok []) ∧
    (findTagBody content ("WARPS") = none → parse_warps content = Except.ok []) ∧
    (findTagBody content ("FAKES") = none → parse_fakes content = Except.ok []) ∧
    (findTagBody content ("SCROLLS") = none → parse_scrolls content = Except.ok []) ∧
    (findTagBody content ("SPEEDS") = none → parse_speeds content = Except.ok []) := by
  refine ⟨fun h => ?_, fun h => ?_, fun h => ?_, fun h => ?_, fun h => ?_, fun h => ?_⟩ <;>
    simp [parse_bpms, parse_stops, parse_warps, parse_fakes, parse_scrolls, parse_speeds,
      parseTimingPairs, rawTimingPairs, rawTimingSpeeds, pySorted, h, Except.map]

/-- C10 witness: the empty input contains none of the six tags, and all six
parsers return the empty list on it. -/
theorem c10_witness :
    parse_bpms ("") = Except.ok [] ∧ parse_stops ("") = Except.ok [] ∧
    parse_warps ("") = Except.ok [] ∧ parse_fakes ("") = Except.ok [] ∧
    parse_scrolls ("") = Except.ok [] ∧ parse_speeds ("") = Except.ok [] := by
  have h := c10_absent_tags_yield_empty ""
  exact ⟨h.1 rfl, h.2.1 rfl, h.2.2.1 rfl, h.2.2.2.1 rfl, h.2.2.2.2.1 rfl, h.2.2.2.2.2 rfl⟩

/-- C6 amended: every timing-list parser returns a list sorted
non-decreasing in the LEXICOGRAPHIC order on whole tuples — in particular
non-decreasing by beat — but entries with equal beats are ordered by their
value fields, not by input position. -/
theorem c6_timing_lists_sorted_lex (content : String) :
    (∀ l, parse_bpms content = Except.ok l → l.Pairwise (fun a b => tupLe2 a b = true)) ∧
    (∀ l, parse_stops content = Except.ok l → l.Pairwise (fun a b => tupLe2 a b = true)) ∧
    (∀ l, parse_warps content = Except.ok l → l.Pairwise (fun a b => tupLe2 a b = true)) ∧
    (∀ l, parse_fakes content = Except.ok l → l.Pairwise (fun a b => tupLe2 a b = true)) ∧
    (∀ l, parse_scrolls content = Except.ok l → l.Pairwise (fun a b => tupLe2 a b = true)) ∧
    (∀ l, parse_speeds content = Except.ok l → l.Pairwise (fun a b => tupLe3 a b = true)) := by
  exact ⟨fun l h => parseTimingPairs_sorted _ _ l h, fun l h => parseTimingPairs_sorted _ _ l h,
    fun l h => parseTimingPairs_sorted _ _ l h, fun l h => parseTimingPairs_sorted _ _ l h,
    fun l h => parseTimingPairs_sorted _ _ l h, fun l h => parse_speeds_sorted _ l h⟩

/-- C6 amended witness: the sorted output for `#BPMS:0=200,0=100;` is
lexicographically pairwise ordered. -/
theorem c6_sorted_witness :
    ([((0 : ℚ), (100 : ℚ)), (0, 200)]).Pairwise (fun a b => tupLe2 a b = true) := by
  exact (c6_timing_lists_sorted_lex c6_content).1 [(0, 100), (0, 200)] (by decide)

/-- Helper: `processHolds` resolves the note at each position against the
notes strictly after that position. -/
theorem processHolds_getElem (l : List Note) (i : ℕ) :
    (processHolds l)[i]? = (l[i]?).map (fun n => resolveNote n (l.drop (i + 1))) := by
  induction l generalizing i with
  | nil => simp [processHolds]
  | cons n rest ih =>
    cases i with
    | zero => simp [processHolds]
    | succ j =>
      simpa [processHolds] using ih j

/-- Helper: a successful `find?` returns the first element satisfying the
predicate, located at some index before which no element satisfies it. -/
theorem find_first_index {α} (p : α → Bool) (xs : List α) (b : α)
    (h : xs.find? p = some b) :
    ∃ k : ℕ, xs[k]? = some b ∧ p b = true ∧
      ∀ (j : ℕ) (u : α), j < k → xs[j]? = some u → p u = false := by
  induction xs with
  | nil => cases h
  | cons a as ih =>
    by_cases ha : p a = true
    · rw [List.find?_cons_of_pos _ ha] at h
      obtain rfl : a = b := Option.some.inj h
      exact ⟨0, by simp, ha, fun j u hj _ => absurd hj (by omega)⟩
    · rw [List.find?_cons_of_neg _ (by simpa using ha)] at h
      obtain ⟨k, hk, hb, hmin⟩ := ih h
      refine ⟨k + 1, by simpa using hk, hb, ?_⟩
      intro j u hj hu
      cases j with
      | zero =>
        obtain rfl : a = u := Option.some.inj (by simpa using hu)
        simpa using ha
      | succ j' =>
        exact hmin j' u (by omega) (by simpa using hu)

/-- C3 amended: `_process_holds` resolves every `hold_head`/`roll_head`
against the FIRST later note in its column whose kind is `hold_tail` OR
`roll_tail` — the head's own family is not consulted — setting
`hold_length = tail.beat - head.beat`; if no such tail of either family
follows, the head is unchanged (its hold length stays 0), and notes of all
other kinds are left untouched. -/
theorem c3_first_either_family_tail (notes : List Note) (i : ℕ) (n : Note)
    (hn : notes[i]? = some n) :
    ((n.type = "hold_head" ∨ n.type = "roll_head") →
      (∃ j t, i < j ∧ notes[j]? = some t ∧ isTailFor n t = true ∧
        (∀ k u, i < k → k < j → notes[k]? = some u → isTailFor n u = false) ∧
        (processHolds notes)[i]? =
          some ⟨n.beat, n.column, n.type, t.beat - n.beat, n.is_fake⟩) ∨
      ((∀ j t, i < j → notes[j]? = some t → isTailFor n t = false) ∧
        (processHolds notes)[i]? = some n)) ∧
    (¬ (n.type = "hold_head" ∨ n.type = "roll_head") →
      (processHolds notes)[i]? = some n) := by
  have hres : (processHolds notes)[i]? =
      some (resolveNote n (notes.drop (i + 1))) := by
    rw [processHolds_getElem, hn]
    rfl
  constructor
  · intro hhead
    have hcond : (n.type == "hold_head" || n.type == "roll_head") = true := by
      rcases hhead with h | h <;> simp [h]
    cases hf : (notes.drop (i + 1)).find? (isTailFor n) with
    | some t =>
      obtain ⟨k, hk, hp, hmin⟩ := find_first_index (isTailFor n) _ t hf
      refine Or.inl ⟨i + 1 + k, t, by omega, ?_, hp, ?_, ?_⟩
      · rw [← List.getElem?_drop]
        exact hk
      · intro j u hij hjk hu
        have hju : (notes.drop (i + 1))[j - (i + 1)]? = some u := by
          rw [List.getElem?_drop]
          have : i + 1 + (j - (i + 1)) = j := by omega
          rw [this]
          exact hu
        exact hmin (j - (i + 1)) u (by omega) hju
      · rw [hres]
        unfold resolveNote
        rw [if_pos hcond, hf]
    | none =>
      refine Or.inr ⟨?_, ?_⟩
      · intro j t hij hj
        have ht : t ∈ notes.drop (i + 1) := by
          apply List.getElem?_mem (n := j - (i + 1))
          rw [List.getElem?_drop]
          have : i + 1 + (j - (i + 1)) = j := by omega
          rw [this]
          exact hj
        have := List.find?_eq_none.mp hf t ht
        simpa using this
      · rw [hres]
        unfold resolveNote
        rw [if_pos hcond, hf]
  · intro hother
    have hcond : (n.type == "hold_head" || n.type == "roll_head") = false := by
      simp only [Bool.or_eq_false_iff, beq_eq_false_iff_ne]
      exact ⟨fun h => hother (Or.inl h), fun h => hother (Or.inr h)⟩
    rw [hres]
    unfold resolveNote
    rw [if_neg (by simp [hcond])]

/-- C3 amended witness: in a list with a hold head at beat 0 in column 0, a
tap in another column, and a hold tail at beat 2 in column 0, the head is
resolved against that first tail. -/
theorem c3_first_tail_witness :
    (∃ (j : ℕ) (t : Note), 0 < j ∧ c3w[j]? = some t ∧
        isTailFor ⟨0, 0, "hold_head", 0, false⟩ t = true ∧
        (∀ (k : ℕ) (u : Note), 0 < k → k < j → c3w[k]? = some u →
          isTailFor ⟨0, 0, "hold_head", 0, false⟩ u = false) ∧
        (processHolds c3w)[0]? = some ⟨0, 0, "hold_head", t.beat - 0, false⟩) ∨
      ((∀ (j : ℕ) (t : Note), 0 < j → c3w[j]? = some t →
          isTailFor ⟨0, 0, "hold_head", 0, false⟩ t = false) ∧
        (processHolds c3w)[0]? = some ⟨0, 0, "hold_head", 0, false⟩) :=
  (c3_first_either_family_tail c3w 0 ⟨0, 0, "hold_head", 0, false⟩ (by decide)).1
    (Or.inl rfl)

/-- C7 amended: a grid row is accepted exactly when its character count is 4
OR 8, with no reference to the chart's type: an accepted row emits a note for
every character that is a `NOTE_TYPES` key other than `0`, and a row of any
other length emits nothing. -/
theorem c7_row_accepted_iff_len_4_or_8 (beat : ℚ) (row : String) (c : ℕ) (ch : Char)
    (t : String) :
    (row.data[c]? = some ch → NOTE_TYPES_get ch = some t → ch ≠ '0' →
      (row.length = 4 ∨ row.length = 8) →
      (⟨beat, c, t, 0, false⟩ : Note) ∈ acceptedRowNotes beat row) ∧
    (row.length ≠ 4 → row.length ≠ 8 → acceptedRowNotes beat row = []) := by
  constructor
  · intro hch ht h0 hlen
    unfold acceptedRowNotes
    rw [if_pos hlen]
    unfold rowNotes
    rw [List.mem_filterMap]
    refine ⟨(c, ch), List.mem_enum_iff_getElem?.mpr hch, ?_⟩
    simp only [ht]
    rw [if_neg (by simpa using h0)]
  · intro h4 h8
    unfold acceptedRowNotes
    rw [if_neg (fun h => h.elim h4 h8)]

/-- C7 amended witness: the 4-character row `1000` yields a tap in column 0,
and the 5-character row `10000` yields nothing. -/
theorem c7_row_length_witness :
    (⟨0, 0, "tap", 0, false⟩ : Note) ∈ acceptedRowNotes 0 ("1000") ∧
    acceptedRowNotes 0 ("10000") = [] :=
  ⟨(c7_row_accepted_iff_len_4_or_8 0 ("1000") 0 '1' ("tap")).1 (by decide) (by decide)
      (by decide) (Or.inl (by decide)),
   (c7_row_accepted_iff_len_4_or_8 0 ("10000") 0 '1' ("tap")).2 (by decide) (by decide)⟩

/-- Helper: no measure counts before index 0. -/
theorem nonBlankMeasuresBefore_zero (ms : List String) :
    nonBlankMeasuresBefore ms 0 = 0 := by
  simp [nonBlankMeasuresBefore]

/-- Helper: unfolding the non-blank measure count over a cons cell. -/
theorem nonBlankMeasuresBefore_cons (m : String) (ms : List String) (i : ℕ) :
    nonBlankMeasuresBefore (m :: ms) (i + 1) =
      (if (nonBlankRows m).isEmpty = true then 0 else 1) + nonBlankMeasuresBefore ms i := by
  simp only [nonBlankMeasuresBefore, List.take_succ_cons, List.filter_cons]
  by_cases hm : (nonBlankRows m).isEmpty = true
  · simp [hm]
  · simp [hm, Nat.add_comm]

/-- Helper: every note emitted by a row carries exactly the beat the row was
given. -/
theorem rowNotes_beat (b : ℚ) (row : List Char) (n : Note) (h : n ∈ rowNotes b row) :
    n.beat = b := by
  unfold rowNotes at h
  rw [List.mem_filterMap] at h
  obtain ⟨p, _, hp⟩ := h
  split at hp
  · split at hp
    · cases hp
    · obtain rfl := Option.some.inj hp
      rfl
  · cases hp

/-- Helper: row acceptance does not change the emitted beat. -/
theorem acceptedRowNotes_beat (b : ℚ) (row : String) (n : Note)
    (h : n ∈ acceptedRowNotes b row) : n.beat = b := by
  unfold acceptedRowNotes at h
  split at h
  · exact rowNotes_beat b row.data n h
  · cases h

/-- Helper: a measure with no rows emits nothing. -/
theorem measureNotes_nil (off : ℚ) : measureNotes off [] = [] := rfl

/-- C8 amended: the running beat offset advances by 4 per measure that has at
least one non-blank row — a measure whose rows are all blank is skipped
before `current_beat += 4` and advances nothing — so a note belongs to the
grid exactly when it belongs to some measure taken at offset
`4 * (number of non-blank measures before it)`, and within a measure of `n`
rows the row at index `r` carries beat `offset + r * 4 / n`, which lies in
`[offset, offset + 4)`. -/
theorem c8_beat_offset_per_nonblank_measure (cur : ℚ) (ms : List String) (note : Note) :
    (note ∈ parseNotesGo cur ms ↔
      ∃ (i : ℕ) (m : String), ms[i]? = some m ∧
        note ∈ measureNotes (cur + 4 * (nonBlankMeasuresBefore ms i : ℚ)) (nonBlankRows m)) ∧
    (∀ (off : ℚ) (rows : List String), note ∈ measureNotes off rows →
      ∃ r : ℕ, r < rows.length ∧
        note.beat = off + (r : ℚ) * (4 / (rows.length : ℚ)) ∧
        off ≤ note.beat ∧ note.beat < off + 4) := by
  constructor
  · induction ms generalizing cur with
    | nil =>
      simp [parseNotesGo]
    | cons m ms ih =>
      simp only [parseNotesGo]
      by_cases hm : (nonBlankRows m).isEmpty = true
      · rw [if_pos hm, ih cur]
        constructor
        · rintro ⟨i, m', hi, hmem⟩
          refine ⟨i + 1, m', by simpa using hi, ?_⟩
          rw [nonBlankMeasuresBefore_cons, if_pos hm]
          simpa using hmem
        · rintro ⟨i, m', hi, hmem⟩
          cases i with
          | zero =>
            obtain rfl : m = m' := by simpa using hi
            rw [List.isEmpty_iff.mp hm, measureNotes_nil] at hmem
            cases hmem
          | succ j =>
            refine ⟨j, m', by simpa using hi, ?_⟩
            rw [nonBlankMeasuresBefore_cons, if_pos hm] at hmem
            simpa using hmem
      · rw [if_neg hm, List.mem_append, ih (cur + 4)]
        constructor
        · rintro (hmem | ⟨i, m', hi, hmem⟩)
          · refine ⟨0, m, by simp, ?_⟩
            rw [nonBlankMeasuresBefore_zero]
            simpa using hmem
          · refine ⟨i + 1, m', by simpa using hi, ?_⟩
            rw [nonBlankMeasuresBefore_cons, if_neg hm]
            have heq : cur + 4 * ((1 + nonBlankMeasuresBefore ms i : ℕ) : ℚ) =
                cur + 4 + 4 * (nonBlankMeasuresBefore ms i : ℚ) := by
              push_cast
              ring
            rw [heq]
            exact hmem
        · rintro ⟨i, m', hi, hmem⟩
          cases i with
          | zero =>
            obtain rfl : m = m' := by simpa using hi
            refine Or.inl ?_
            rw [nonBlankMeasuresBefore_zero] at hmem
            simpa using hmem
          | succ j =>
            refine Or.inr ⟨j, m', by simpa using hi, ?_⟩
            rw [nonBlankMeasuresBefore_cons, if_neg hm] at hmem
            have heq : cur + 4 * ((1 + nonBlankMeasuresBefore ms j : ℕ) : ℚ) =
                cur + 4 + 4 * (nonBlankMeasuresBefore ms j : ℚ) := by
              push_cast
              ring
            rw [heq] at hmem
            exact hmem
  · intro off rows hmem
    unfold measureNotes at hmem
    rw [List.mem_flatMap] at hmem
    obtain ⟨p, hp, hmem2⟩ := hmem
    have hr : p.1 < rows.length := List.fst_lt_of_mem_enum hp
    have hbeat := acceptedRowNotes_beat _ _ _ hmem2
    have hlen0 : 0 < rows.length := Nat.lt_of_le_of_lt (Nat.zero_le _) hr
    have hlenQ : (0 : ℚ) < (rows.length : ℚ) := by exact_mod_cast hlen0
    have hdiv : (0 : ℚ) < 4 / (rows.length : ℚ) := by positivity
    have hltQ : (p.1 : ℚ) < (rows.length : ℚ) := by exact_mod_cast hr
    have hmul : (p.1 : ℚ) * (4 / (rows.length : ℚ)) <
        (rows.length : ℚ) * (4 / (rows.length : ℚ)) :=
      mul_lt_mul_of_pos_right hltQ hdiv
    have hcancel : (rows.length : ℚ) * (4 / (rows.length : ℚ)) = 4 := by
      field_simp
    have hnonneg : (0 : ℚ) ≤ (p.1 : ℚ) * (4 / (rows.length : ℚ)) := by positivity
    refine ⟨p.1, hr, hbeat, ?_, ?_⟩
    · rw [hbeat]
      linarith
    · rw [hbeat]
      linarith

/-- C8 amended witness: in the grid measures `["", "1000"]` the blank first
measure advances nothing, so the tap of the second measure sits at offset
`4 * 0 = 0`, and within the one-row measure its beat is `0 + 0 * (4/1) = 0`,
inside `[0, 4)`. -/
theorem c8_offset_witness :
    (⟨0, 0, "tap", 0, false⟩ : Note) ∈ parseNotesGo 0 [("" : String), ("1000" : String)] ∧
    (∃ r : ℕ, r < ([("1000" : String)]).length ∧
      (⟨0, 0, "tap", 0, false⟩ : Note).beat =
        0 + (r : ℚ) * (4 / (([("1000" : String)]).length : ℚ)) ∧
      (0 : ℚ) ≤ (⟨0, 0, "tap", 0, false⟩ : Note).beat ∧
      (⟨0, 0, "tap", 0, false⟩ : Note).beat < 0 + 4) := by
  constructor
  · exact (c8_beat_offset_per_nonblank_measure 0 [("" : String), ("1000" : String)]
      ⟨0, 0, "tap", 0, false⟩).1.mpr ⟨1, "1000", by decide, by decide⟩
  · exact (c8_beat_offset_per_nonblank_measure 0 [("" : String), ("1000" : String)]
      ⟨0, 0, "tap", 0, false⟩).2 0 [("1000" : String)] (by decide)

end SMChart
